import Mathlib

/-!
A shallow embedding of the synthetic speech-placeholder generator and the
manual WAV fallback encoder of the Armis repository, together with proofs
about the properties stated in its specification.

Sources embedded:
  - src/models/coqui-xtts/xtts_service.py
      CoquiXTTSService._create_default_reference_audio  (voice group partition,
      7-harmonic waveform with formants, envelope, noise, clipping)
      CoquiXTTSService.synthesize                       (result shape)
  - src/models/coqui-xtts/setup.py
      create_reference_audio                            (identical waveform logic)
  - src/models/inworld-tts-local/local_tts_service.py
      LocalInworldTTS.load_models / list_models         (model map defaults)
      LocalInworldTTS.synthesize                        (model gate, result shape)
      LocalInworldTTS._generate_speech                  (5-harmonic waveform,
      duration heuristic, clipping)
      LocalInworldTTS._write_wav_file                   (manual WAV container)

Real-number transcendentals computed by numpy (sin, exp, float power, pi) are
abstracted as parameters of the embedding (bundled in `FloatOps`); every other
arithmetic step is carried out exactly over the rationals, mirroring the
source expression by expression.  numpy's `astype(np.int16)` conversion is
modelled as truncation toward zero followed by 16-bit two's-complement
wrap-around, which is its behaviour on the values arising here.
-/

namespace Armis

/-! ### Voice group partition

From `_create_default_reference_audio` in xtts_service.py (and the identical
code in setup.py):

  base_freq = 220 if voice_name in ['p225', 'p227', 'p229'] else 110
  formant_freqs = [500, 1500, 2500, 3500] if voice_name in ['p225', 'p227', 'p229']
                  else [400, 1200, 2200, 3200]
-/

/-- The fixed list of voice ids that select the high group. -/
def highVoices : List String := ["p225", "p227", "p229"]

/-- Base frequency selection, from the source ternary expression. -/
def baseFreq (voice : String) : ℕ :=
  if voice ∈ highVoices then 220 else 110

/-- Formant frequency selection, from the source ternary expression. -/
def formantFreqs (voice : String) : List ℕ :=
  if voice ∈ highVoices then [500, 1500, 2500, 3500] else [400, 1200, 2200, 3200]

/-! ### Quantization (from `_write_wav_file`)

The source converts the float buffer with `(audio_data * 32767).astype(np.int16)`:
multiply by 32767, truncate toward zero, and reinterpret in 16-bit
two's complement (wrap-around).  No clamping and no rounding occur.
-/

/-- Truncation toward zero of a rational, as performed by a float-to-integer
cast: floor for nonnegative values, ceiling for negative ones. -/
def ratTrunc (q : ℚ) : ℤ :=
  if 0 ≤ q then ⌊q⌋ else ⌈q⌉

/-- Reduce an integer into the signed 16-bit range by two's-complement
wrap-around, as `astype(np.int16)` does for out-of-range values. -/
def wrap16 (z : ℤ) : ℤ :=
  ((z + 32768) % 65536) - 32768

/-- One sample through the encoder's conversion `(sample * 32767).astype(np.int16)`. -/
def quantizeSample (s : ℚ) : ℤ :=
  wrap16 (ratTrunc (s * 32767))

/-- Modelled from the spec: the quantizer the specification describes,
`round(clamp(sample, -1, 1) * 32767)` — clamp to [-1, 1], scale, round to
nearest.  Stated for comparison with `quantizeSample`, the encoder's actual
conversion. -/
def specQuantize (s : ℚ) : ℤ :=
  round (max (-1) (min 1 s) * 32767)

/-! ### Duration heuristic and sample count (from `_generate_speech`)

  sample_rate = 24000
  duration = max(2.0, len(text) * 0.1)
  samples = int(sample_rate * duration)

`int()` truncates toward zero.
-/

/-- The fixed sample rate used at every call site. -/
def sampleRate : ℕ := 24000

/-- `duration = max(2.0, len(text) * 0.1)` for a text of `n` characters. -/
def durationFor (n : ℕ) : ℚ :=
  max 2 ((n : ℚ) * (1 / 10))

/-- `samples = int(sample_rate * duration)`. -/
def samplesFor (n : ℕ) : ℕ :=
  (ratTrunc ((sampleRate : ℚ) * durationFor n)).toNat

/-! ### Basic facts about truncation and wrap-around -/

theorem ratTrunc_natCast (k : ℕ) : ratTrunc (k : ℚ) = k := by
  unfold ratTrunc
  rw [if_pos (by positivity)]
  exact_mod_cast Int.floor_natCast k

theorem wrap16_eq_self {z : ℤ} (h1 : -32768 ≤ z) (h2 : z ≤ 32767) : wrap16 z = z := by
  unfold wrap16
  rw [Int.emod_eq_of_lt (by omega) (by omega)]
  omega

/-- For arguments bounded by `B + f` with `0 ≤ f < 1` and `B : ℕ`,
truncation toward zero stays within `[-B, B]`. -/
theorem ratTrunc_bound {q : ℚ} {B : ℕ} {f : ℚ} (hf1 : f < 1)
    (hlo : -((B : ℚ) + f) ≤ q) (hhi : q ≤ (B : ℚ) + f) :
    -(B : ℤ) ≤ ratTrunc q ∧ ratTrunc q ≤ (B : ℤ) := by
  unfold ratTrunc
  split
  case isTrue h =>
    constructor
    · have : (0 : ℤ) ≤ ⌊q⌋ := Int.floor_nonneg.mpr h
      omega
    · have : ⌊q⌋ < (B : ℤ) + 1 := by
        rw [Int.floor_lt]
        push_cast
        linarith
      omega
  case isFalse h =>
    constructor
    · have : -((B : ℤ) + 1) < ⌈q⌉ := by
        rw [Int.lt_ceil]
        push_cast
        linarith
      omega
    · have : ⌈q⌉ ≤ 0 := Int.ceil_le.mpr (by push_cast; linarith)
      omega

/-! ### WAV container construction (from `_write_wav_file`)

The source builds the header with

  struct.pack('<4sI4s4sIHHIIHH4sI', b'RIFF', 36 + len(audio_bytes), b'WAVE',
              b'fmt ', 16, 1, 1, sample_rate, sample_rate * 2, 2, 16,
              b'data', len(audio_bytes))

`<` selects little-endian; `I` is an unsigned 32-bit field and `H` an unsigned
16-bit field, and `struct.pack` raises when a value is out of range, which we
model with `Option`.  The data section is the concatenation of the
little-endian two's-complement bytes of each quantized sample.
-/

/-- Little-endian bytes of an unsigned 16-bit value. -/
def le16 (v : ℕ) : List ℕ := [v % 256, v / 256 % 256]

/-- Little-endian bytes of an unsigned 32-bit value. -/
def le32 (v : ℕ) : List ℕ :=
  [v % 256, v / 256 % 256, v / 65536 % 256, v / 16777216 % 256]

/-- `struct.pack` field H: fails when the value exceeds 16 bits. -/
def packU16 (v : ℕ) : Option (List ℕ) :=
  if v < 65536 then some (le16 v) else none

/-- `struct.pack` field I: fails when the value exceeds 32 bits. -/
def packU32 (v : ℕ) : Option (List ℕ) :=
  if v < 4294967296 then some (le32 v) else none

/-- The header bytes as the source lays them out, with every range check of
`struct.pack` carried out.  ASCII tags: RIFF, WAVE, fmt-space, data. -/
def wavHeaderPack (sr dataLen : ℕ) : Option (List ℕ) := do
  let sz ← packU32 (36 + dataLen)
  let fs ← packU32 16
  let af ← packU16 1
  let nc ← packU16 1
  let rate ← packU32 sr
  let br ← packU32 (sr * 2)
  let ba ← packU16 2
  let bps ← packU16 16
  let dl ← packU32 dataLen
  pure ([82, 73, 70, 70] ++ sz ++ [87, 65, 86, 69] ++ [102, 109, 116, 32] ++
    fs ++ af ++ nc ++ rate ++ br ++ ba ++ bps ++ [100, 97, 116, 97] ++ dl)

/-- The same header with the range checks stripped — the value
`wavHeaderPack` produces whenever all fields fit. -/
def wavHeaderBytes (sr dataLen : ℕ) : List ℕ :=
  [82, 73, 70, 70] ++ le32 (36 + dataLen) ++ [87, 65, 86, 69] ++
    [102, 109, 116, 32] ++ le32 16 ++ le16 1 ++ le16 1 ++ le32 sr ++
    le32 (sr * 2) ++ le16 2 ++ le16 16 ++ [100, 97, 116, 97] ++ le32 dataLen

/-- Little-endian two's-complement bytes of a 16-bit signed sample. -/
def int16LE (z : ℤ) : List ℕ := le16 (z % 65536).toNat

/-- The data section: the byte stream of the quantized samples. -/
def wavData (samples : List ℚ) : List ℕ :=
  samples.flatMap (fun s => int16LE (quantizeSample s))

/-- The full file image the encoder writes: header followed by data. -/
def wavFileBytes (samples : List ℚ) (sr : ℕ) : Option (List ℕ) :=
  (wavHeaderPack sr (wavData samples).length).map (fun h => h ++ wavData samples)

/-! ### A standard WAV reader -/

/-- Read a little-endian 16-bit field at a byte offset. -/
def readLE16 (bs : List ℕ) (off : ℕ) : ℕ :=
  bs.getD off 0 + 256 * bs.getD (off + 1) 0

/-- Read a little-endian 32-bit field at a byte offset. -/
def readLE32 (bs : List ℕ) (off : ℕ) : ℕ :=
  bs.getD off 0 + 256 * bs.getD (off + 1) 0 + 65536 * bs.getD (off + 2) 0 +
    16777216 * bs.getD (off + 3) 0

/-- Modelled from the spec: a standard WAV decoder (external to the
repository).  It checks the RIFF, WAVE, fmt and data tags and the PCM format
code, then reports the channel count, bits per sample, sample rate, and the
sample count obtained by dividing the data-chunk size by the block alignment. -/
def wavParse (bs : List ℕ) : Option (ℕ × ℕ × ℕ × ℕ) :=
  if bs.take 4 = [82, 73, 70, 70] ∧ (bs.drop 8).take 4 = [87, 65, 86, 69] ∧
      (bs.drop 12).take 4 = [102, 109, 116, 32] ∧ readLE16 bs 20 = 1 ∧
      (bs.drop 36).take 4 = [100, 97, 116, 97] ∧ readLE16 bs 32 ≠ 0 then
    some (readLE16 bs 22, readLE16 bs 34, readLE32 bs 24,
      readLE32 bs 40 / readLE16 bs 32)
  else
    none

/-! ### Waveform synthesizers

The numpy transcendentals are abstracted: the embedding is parametric in the
functions numpy evaluates (sin, exp, float power) and in the float constant
pi.  Every structural property proved below holds for any values of these
parameters, so in particular for their true float64 values.
-/

/-- The float operations the generators call out to. -/
structure FloatOps where
  sinf : ℚ → ℚ
  expf : ℚ → ℚ
  powf : ℚ → ℚ → ℚ
  pi : ℚ

/-- `np.linspace(0, d, s)`: the i-th of `s` evenly spaced points from 0 to `d`
inclusive (a single point, or none, when `s ≤ 1`). -/
def linT (d : ℚ) (s : ℕ) (i : ℕ) : ℚ :=
  if s ≤ 1 then 0 else d * i / ((s : ℚ) - 1)

/-- `np.clip(x, -0.9, 0.9)`. -/
def clip09 (x : ℚ) : ℚ :=
  min (9 / 10) (max (-(9 / 10)) x)

/-- Harmonic sum of `_create_default_reference_audio`: seven harmonics with
amplitude `0.4 / i ** 0.8` at frequency `base_freq * i`. -/
def xttsHarmonics (F : FloatOps) (bf : ℚ) (t : ℚ) : ℚ :=
  ((List.range 7).map (fun k =>
    (2 / 5) / F.powf ((k : ℚ) + 1) (4 / 5) *
      F.sinf (2 * F.pi * (bf * ((k : ℚ) + 1)) * t))).sum

/-- Formant sum of `_create_default_reference_audio`: each formant frequency
contributes `0.1 * sin(2 pi f t)`. -/
def xttsFormants (F : FloatOps) (v : String) (t : ℚ) : ℚ :=
  ((formantFreqs v).map (fun f => (1 / 10) * F.sinf (2 * F.pi * (f : ℚ) * t))).sum

/-- The deterministic part of an xtts reference-audio sample: harmonics plus
formants, scaled by the envelope `exp(-t / (duration * 0.4))`. -/
def xttsDet (F : FloatOps) (v : String) (d : ℚ) (i : ℕ) : ℚ :=
  let s := (ratTrunc ((sampleRate : ℚ) * d)).toNat
  let t := linT d s i
  (xttsHarmonics F ((baseFreq v : ℕ) : ℚ) t + xttsFormants F v t) *
    F.expf (-t / (d * (2 / 5)))

/-- One sample of `_create_default_reference_audio`: deterministic part plus
the Gaussian noise drawn for that index, clipped to [-0.9, 0.9].  The noise
draw is the only nondeterministic input and is passed in explicitly. -/
def xttsSample (F : FloatOps) (v : String) (d : ℚ) (noise : ℕ → ℚ) (i : ℕ) : ℚ :=
  clip09 (xttsDet F v d i + noise i)

/-- The `duration` the xtts reference-audio generator uses: fixed 3.0 seconds. -/
def xttsDuration : ℚ := 3

/-- Case-folded substring test used by `_generate_speech` via
`'female' in model_name.lower()`.  `subAt` checks the needle at every
position of the haystack. -/
def chunkEq : List Char → List Char → Bool
  | [], _ => true
  | _ :: _, [] => false
  | a :: as, b :: bs => a == b && chunkEq as bs

/-- Whether the needle occurs in the haystack at some position. -/
def subAt (n : List Char) : List Char → Bool
  | [] => chunkEq n []
  | c :: cs => chunkEq n (c :: cs) || subAt n cs

/-- `base_freq = 220 if 'female' in model_name.lower() else 110` from
`_generate_speech` in local_tts_service.py. -/
def localBaseFreq (model : String) : ℕ :=
  if subAt "female".data model.toLower.data then 220 else 110

/-- The deterministic part of a `_generate_speech` sample: five harmonics
with amplitude `0.3 / i`, scaled by the envelope `exp(-t / (duration * 0.3))`.
`n` is the character count of the input text. -/
def localDet (F : FloatOps) (model : String) (n : ℕ) (i : ℕ) : ℚ :=
  let d := durationFor n
  let t := linT d (samplesFor n) i
  (((List.range 5).map (fun k =>
    (3 / 10) / ((k : ℚ) + 1) *
      F.sinf (2 * F.pi * ((localBaseFreq model : ℕ) : ℚ) * ((k : ℚ) + 1) * t))).sum) *
    F.expf (-t / (d * (3 / 10)))

/-- One sample of `_generate_speech`: deterministic part plus the per-index
noise draw, clipped to [-0.9, 0.9]. -/
def localSample (F : FloatOps) (model : String) (n : ℕ) (noise : ℕ → ℚ) (i : ℕ) : ℚ :=
  clip09 (localDet F model n i + noise i)

/-- The full buffer `_generate_speech` produces for a text of `n` characters. -/
def localBuffer (F : FloatOps) (model : String) (n : ℕ) (noise : ℕ → ℚ) : List ℚ :=
  (List.range (samplesFor n)).map (localSample F model n noise)

/-- The full reference-audio buffer `_create_default_reference_audio` produces. -/
def xttsBuffer (F : FloatOps) (v : String) (noise : ℕ → ℚ) : List ℚ :=
  (List.range ((ratTrunc ((sampleRate : ℚ) * xttsDuration)).toNat)).map
    (xttsSample F v xttsDuration noise)

/-- A trivial instantiation of the abstract float operations, used to
exercise the parametric theorems on concrete inputs. -/
def zeroFloatOps : FloatOps where
  sinf := fun _ => 0
  expf := fun _ => 0
  powf := fun _ _ => 0
  pi := 0

/-! ### The local service model map (from `load_models` / `list_models`) -/

/-- What `load_models` observes about one entry of the models directory. -/
structure DirEntry where
  name : String
  isDir : Bool
  hasConfig : Bool
  loadOk : Bool

/-- The default model names `load_models` guarantees. -/
def defaultModelNames : List String := ["tts-1", "tts-1-max"]

/-- Dictionary-key insertion: assigning to an existing key leaves the key set
unchanged, a new key is appended. -/
def insertKey (ks : List String) (k : String) : List String :=
  if k ∈ ks then ks else ks ++ [k]

/-- Keys discovered from the models directory: directories with a readable
`config.json`.  A load error skips the entry. -/
def discoveredKeys (dirs : List DirEntry) : List String :=
  dirs.foldl (fun ks e =>
    if e.isDir && e.hasConfig && e.loadOk then insertKey ks e.name else ks) []

/-- The key set of `self.models` after `load_models`: discovered keys, with
each default model added when absent. -/
def loadModelKeys (dirs : List DirEntry) : List String :=
  defaultModelNames.foldl insertKey (discoveredKeys dirs)

/-- `list_models`: the models list paired with the device string. -/
def listModels (keys : List String) (device : String) : List String × String :=
  (keys, device)

/-- The unknown-model check at the top of `synthesize`:
`if model_name not in self.models: raise ValueError(...)`.  The raise happens
before the try block, so it propagates to the caller. -/
def modelGate (keys : List String) (m : String) : Except String Unit :=
  if m ∈ keys then Except.ok () else Except.error ("Model " ++ m ++ " not found")

/-! ### The synthesize result shape (fallback path of `synthesize`) -/

/-- The structured result `synthesize` returns: `success: true` with audio,
format, sample rate and duration, or `success: false` with an error string. -/
inductive SynthResult where
  | ok (audio : String) (format : String) (srate : ℕ) (dur : ℚ)
  | err (msg : String)
deriving DecidableEq

/-- The duration field of a result (0 for a failure result). -/
def SynthResult.durationOf : SynthResult → ℚ
  | .ok _ _ _ d => d
  | .err _ => 0

/-- The fallback branch of `synthesize` in local_tts_service.py: on success it
base64-encodes the raw file bytes and reports
`duration = len(audio_bytes) / (sample_rate * 2)` with `sample_rate = 24000`,
where `audio_bytes` is the whole file read back from disk; on generation
failure it returns the fixed error message.  `enc` abstracts the external
`base64.b64encode`. -/
def localSynthFallback (enc : List ℕ → String) (fileBytes : List ℕ)
    (genOk : Bool) : SynthResult :=
  if genOk then
    SynthResult.ok (enc fileBytes) "wav" 24000
      ((fileBytes.length : ℚ) / ((24000 : ℚ) * 2))
  else
    SynthResult.err "Failed to generate speech"

/-! ### The write sequence of `_write_wav_file`

The encoder opens the target for binary writing (truncating it) and issues
two writes: the header, then the data.  On an exception it re-raises after
logging.  `wavWriteRun` gives the outcome and the resulting file content when
the first `okWrites` write calls succeed and the next one (if any remains)
fails: the file holds the concatenation of the chunks written so far.
-/

/-- The chunks `_write_wav_file` writes, in order: header, then data. -/
def wavWriteChunks (samples : List ℚ) (sr : ℕ) : Option (List (List ℕ)) :=
  (wavHeaderPack sr (wavData samples).length).map (fun h => [h, wavData samples])

/-- Run the write sequence with the first `okWrites` writes succeeding.
Result: propagated failure or success, paired with the final file content. -/
def wavWriteRun (chunks : List (List ℕ)) (okWrites : ℕ) :
    Except String Unit × List ℕ :=
  if chunks.length ≤ okWrites then
    (Except.ok (), chunks.flatten)
  else
    (Except.error "write failed", (chunks.take okWrites).flatten)

/-! ### Helper lemmas -/

theorem wavData_length (samples : List ℚ) :
    (wavData samples).length = 2 * samples.length := by
  induction samples with
  | nil => rfl
  | cons s rest ih =>
    have h : wavData (s :: rest) = int16LE (quantizeSample s) ++ wavData rest := rfl
    have h2 : (int16LE (quantizeSample s)).length = 2 := rfl
    rw [h, List.length_append, h2, ih, List.length_cons]
    ring

theorem wavHeaderBytes_length (sr d : ℕ) : (wavHeaderBytes sr d).length = 44 := by
  simp [wavHeaderBytes, le32, le16]

theorem wavHeaderPack_eq {sr d : ℕ} (hsr : sr * 2 < 4294967296)
    (hd : 36 + d < 4294967296) :
    wavHeaderPack sr d = some (wavHeaderBytes sr d) := by
  have h2 : sr < 4294967296 := by omega
  have h3 : d < 4294967296 := by omega
  norm_num [wavHeaderPack, packU32, packU16, wavHeaderBytes, hd, hsr, h2, h3]

theorem le32_recombine {v : ℕ} (h : v < 4294967296) :
    v % 256 + 256 * (v / 256 % 256) + 65536 * (v / 65536 % 256) +
      16777216 * (v / 16777216 % 256) = v := by
  omega

/-- A standard reader applied to the encoder's header followed by any byte
suffix recovers PCM mono 16-bit at the written sample rate, with the sample
count `dataLen / 2`. -/
theorem wavParse_header {sr d : ℕ} (hsr : sr < 4294967296) (hd : d < 4294967296)
    (rest : List ℕ) :
    wavParse (wavHeaderBytes sr d ++ rest) = some (1, 16, sr, d / 2) := by
  have hcond : readLE16 (wavHeaderBytes sr d ++ rest) 20 = 1 ∧
      readLE16 (wavHeaderBytes sr d ++ rest) 22 = 1 ∧
      readLE16 (wavHeaderBytes sr d ++ rest) 32 = 2 ∧
      readLE16 (wavHeaderBytes sr d ++ rest) 34 = 16 := by
    unfold readLE16
    norm_num [wavHeaderBytes, le32, le16, List.getD_cons_succ, List.getD_cons_zero,
      List.cons_append]
  have h24 : readLE32 (wavHeaderBytes sr d ++ rest) 24 = sr := by
    unfold readLE32
    simp only [wavHeaderBytes, le32, le16, List.cons_append, List.nil_append,
      List.getD_cons_succ, List.getD_cons_zero]
    omega
  have h40 : readLE32 (wavHeaderBytes sr d ++ rest) 40 = d := by
    unfold readLE32
    simp only [wavHeaderBytes, le32, le16, List.cons_append, List.nil_append,
      List.getD_cons_succ, List.getD_cons_zero]
    omega
  have htags : (wavHeaderBytes sr d ++ rest).take 4 = [82, 73, 70, 70] ∧
      ((wavHeaderBytes sr d ++ rest).drop 8).take 4 = [87, 65, 86, 69] ∧
      ((wavHeaderBytes sr d ++ rest).drop 12).take 4 = [102, 109, 116, 32] ∧
      ((wavHeaderBytes sr d ++ rest).drop 36).take 4 = [100, 97, 116, 97] := by
    norm_num [wavHeaderBytes, le32, le16, List.cons_append]
  unfold wavParse
  rw [if_pos ⟨htags.1, htags.2.1, htags.2.2.1, hcond.1, htags.2.2.2,
    by rw [hcond.2.2.1]; norm_num⟩]
  rw [hcond.2.1, hcond.2.2.1, hcond.2.2.2, h24, h40]

theorem clip09_lo (x : ℚ) : -(9 / 10) ≤ clip09 x := by
  unfold clip09
  exact le_min (by norm_num) (le_max_left _ _)

theorem clip09_hi (x : ℚ) : clip09 x ≤ 9 / 10 := min_le_left _ _

/-- In the clipped range, quantization is plain truncation (the wrap-around
branch is never taken) and lands in [-29490, 29490]. -/
theorem quantize_clipped {s : ℚ} (hlo : -(9 / 10) ≤ s) (hhi : s ≤ 9 / 10) :
    quantizeSample s = ratTrunc (s * 32767) ∧
      -29490 ≤ quantizeSample s ∧ quantizeSample s ≤ 29490 := by
  have hb : -((29490 : ℚ) + 3 / 10) ≤ s * 32767 ∧ s * 32767 ≤ (29490 : ℚ) + 3 / 10 := by
    constructor <;> [nlinarith; nlinarith]
  have ht := ratTrunc_bound (B := 29490) (f := 3 / 10) (by norm_num)
    (by exact_mod_cast hb.1) (by exact_mod_cast hb.2)
  have hw : quantizeSample s = ratTrunc (s * 32767) := by
    unfold quantizeSample
    exact wrap16_eq_self (by omega) (by omega)
  exact ⟨hw, by rw [hw]; omega, by rw [hw]; omega⟩

/-- For samples in [-1, 1] quantization is truncation without wrap-around. -/
theorem quantize_unit {s : ℚ} (hlo : -1 ≤ s) (hhi : s ≤ 1) :
    quantizeSample s = ratTrunc (s * 32767) ∧
      -32767 ≤ quantizeSample s ∧ quantizeSample s ≤ 32767 := by
  have hb : -((32767 : ℚ) + 1 / 2) ≤ s * 32767 ∧ s * 32767 ≤ (32767 : ℚ) + 1 / 2 := by
    constructor <;> nlinarith
  have ht := ratTrunc_bound (B := 32767) (f := 1 / 2) (by norm_num)
    (by exact_mod_cast hb.1) (by exact_mod_cast hb.2)
  have hw : quantizeSample s = ratTrunc (s * 32767) := by
    unfold quantizeSample
    exact wrap16_eq_self (by omega) (by omega)
  exact ⟨hw, by rw [hw]; omega, by rw [hw]; omega⟩

theorem mem_insertKey_self (ks : List String) (k : String) : k ∈ insertKey ks k := by
  unfold insertKey
  split
  · assumption
  · simp

theorem mem_insertKey_of_mem {ks : List String} {k : String} (j : String)
    (h : k ∈ ks) : k ∈ insertKey ks j := by
  unfold insertKey
  split
  · assumption
  · simp [h]

theorem mem_loadModelKeys_tts1 (dirs : List DirEntry) :
    "tts-1" ∈ loadModelKeys dirs := by
  unfold loadModelKeys defaultModelNames
  exact mem_insertKey_of_mem _ (mem_insertKey_self _ _)

theorem mem_loadModelKeys_tts1max (dirs : List DirEntry) :
    "tts-1-max" ∈ loadModelKeys dirs := by
  unfold loadModelKeys defaultModelNames
  exact mem_insertKey_self _ _

/-- The exact sample-count arithmetic of `_generate_speech`:
`int(24000 * max(2.0, n * 0.1))` equals `max 48000 (2400 * n)`. -/
theorem samplesFor_eq (n : ℕ) : samplesFor n = max 48000 (2400 * n) := by
  have h1 : ((sampleRate : ℕ) : ℚ) * durationFor n =
      ((max 48000 (2400 * n) : ℕ) : ℚ) := by
    unfold durationFor sampleRate
    rw [mul_max_of_nonneg _ _ (by norm_num : (0 : ℚ) ≤ ((24000 : ℕ) : ℚ))]
    have e1 : ((24000 : ℕ) : ℚ) * 2 = ((48000 : ℕ) : ℚ) := by norm_num
    have e2 : ((24000 : ℕ) : ℚ) * ((n : ℚ) * (1 / 10)) = ((2400 * n : ℕ) : ℚ) := by
      push_cast
      ring
    rw [e1, e2, Nat.cast_max]
  unfold samplesFor
  rw [h1, ratTrunc_natCast]
  exact Int.toNat_natCast _

/-- The rate-times-duration product is an exact integer, so rounding and
truncation agree on it. -/
theorem rate_mul_duration (n : ℕ) :
    ((sampleRate : ℕ) : ℚ) * durationFor n = ((max 48000 (2400 * n) : ℕ) : ℚ) := by
  unfold durationFor sampleRate
  rw [mul_max_of_nonneg _ _ (by norm_num : (0 : ℚ) ≤ ((24000 : ℕ) : ℚ))]
  have e1 : ((24000 : ℕ) : ℚ) * 2 = ((48000 : ℕ) : ℚ) := by norm_num
  have e2 : ((24000 : ℕ) : ℚ) * ((n : ℚ) * (1 / 10)) = ((2400 * n : ℕ) : ℚ) := by
    push_cast
    ring
  rw [e1, e2, Nat.cast_max]

theorem localBuffer_length (F : FloatOps) (model : String) (n : ℕ) (noise : ℕ → ℚ) :
    (localBuffer F model n noise).length = samplesFor n := by
  simp [localBuffer]

/-- A successful `struct.pack` of the header determines the range conditions
and the produced bytes. -/
theorem wavHeaderPack_some {sr d : ℕ} {h : List ℕ}
    (hp : wavHeaderPack sr d = some h) :
    sr * 2 < 4294967296 ∧ 36 + d < 4294967296 ∧ h = wavHeaderBytes sr d := by
  by_cases c1 : 36 + d < 4294967296
  · by_cases c2 : sr * 2 < 4294967296
    · rw [wavHeaderPack_eq c2 c1] at hp
      exact ⟨c2, c1, (Option.some.injEq _ _ ▸ hp).symm⟩
    · exfalso
      by_cases c3 : sr < 4294967296 <;>
        [norm_num [wavHeaderPack, packU32, packU16, c1, c2, c3] at hp;
         norm_num [wavHeaderPack, packU32, packU16, c1, c2, c3] at hp] <;>
        exact Option.noConfusion hp
  · exfalso
    norm_num [wavHeaderPack, packU32, packU16, c1] at hp
    exact Option.noConfusion hp

theorem wavWriteRun_two (a b : List ℕ) :
    wavWriteRun [a, b] 2 = (Except.ok (), a ++ b) := by
  unfold wavWriteRun
  rw [if_pos (by simp)]
  simp

theorem wavWriteRun_one (a b : List ℕ) :
    wavWriteRun [a, b] 1 = (Except.error "write failed", a) := by
  unfold wavWriteRun
  rw [if_neg (by simp)]
  simp

/-! ### Claim theorems -/

/-- C1: the synthesizer resolves group membership by a fixed partition of
voice ids: p225, p227, p229 give the high group (base frequency 220 Hz,
formants [500, 1500, 2500, 3500]); p226, p228, p230 and every unrecognized
id give the low group (base frequency 110 Hz, formants [400, 1200, 2200,
3200]).  `baseFreq` and `formantFreqs` are pure functions, so the mapping is
the same on every call. -/
theorem voice_group_partition :
    (∀ v ∈ highVoices, baseFreq v = 220 ∧ formantFreqs v = [500, 1500, 2500, 3500]) ∧
    (∀ v : String, v ∉ highVoices →
      baseFreq v = 110 ∧ formantFreqs v = [400, 1200, 2200, 3200]) ∧
    baseFreq "p225" = 220 ∧ baseFreq "p227" = 220 ∧ baseFreq "p229" = 220 ∧
    baseFreq "p226" = 110 ∧ baseFreq "p228" = 110 ∧ baseFreq "p230" = 110 := by
  refine ⟨?_, ?_, by decide, by decide, by decide, by decide, by decide, by decide⟩
  · intro v hv
    unfold baseFreq formantFreqs
    rw [if_pos hv, if_pos hv]
    exact ⟨rfl, rfl⟩
  · intro v hv
    unfold baseFreq formantFreqs
    rw [if_neg hv, if_neg hv]
    exact ⟨rfl, rfl⟩

/-- Witness for C1 at the unrecognized id "p231". -/
theorem voice_group_partition_witness :
    "p231" ∉ highVoices ∧ baseFreq "p231" = 110 ∧
      formantFreqs "p231" = [400, 1200, 2200, 3200] :=
  ⟨by decide, (voice_group_partition.2.1 "p231" (by decide)).1,
    (voice_group_partition.2.1 "p231" (by decide)).2⟩

/-- C4: the produced buffer length equals `round(sample_rate * duration)`,
where `duration = max(2.0, 0.1 * character_count)`; the code computes the
length with `int()` (truncation), but the product is an exact integer, so
the two agree, and the empty-text floor case gives exactly 48000 samples. -/
theorem buffer_length_round (F : FloatOps) (model : String) (n : ℕ)
    (noise : ℕ → ℚ) :
    (localBuffer F model n noise).length = samplesFor n ∧
    (samplesFor n : ℤ) = round (((sampleRate : ℕ) : ℚ) * durationFor n) ∧
    samplesFor n = max 48000 (2400 * n) ∧
    samplesFor 0 = 48000 := by
  refine ⟨localBuffer_length F model n noise, ?_, samplesFor_eq n, ?_⟩
  · rw [rate_mul_duration n, round_natCast, samplesFor_eq n]
  · simp [samplesFor_eq]

/-- C5: every generated sample is clipped into [-0.9, 0.9], every quantized
sample lies in [-29490, 29490], and quantization never wraps (the int16
overflow path is unreachable): `quantizeSample` coincides with plain
truncation on every generated sample, for both generators. -/
theorem amplitude_and_quantization_bounds (F : FloatOps) (v : String) (d : ℚ)
    (model : String) (n : ℕ) (noise : ℕ → ℚ) (i : ℕ) :
    (-(9 / 10) ≤ xttsSample F v d noise i ∧ xttsSample F v d noise i ≤ 9 / 10) ∧
    (-(9 / 10) ≤ localSample F model n noise i ∧
      localSample F model n noise i ≤ 9 / 10) ∧
    (quantizeSample (xttsSample F v d noise i) =
        ratTrunc (xttsSample F v d noise i * 32767) ∧
      -29490 ≤ quantizeSample (xttsSample F v d noise i) ∧
      quantizeSample (xttsSample F v d noise i) ≤ 29490) ∧
    (quantizeSample (localSample F model n noise i) =
        ratTrunc (localSample F model n noise i * 32767) ∧
      -29490 ≤ quantizeSample (localSample F model n noise i) ∧
      quantizeSample (localSample F model n noise i) ≤ 29490) := by
  have hx1 : -(9 / 10) ≤ xttsSample F v d noise i := clip09_lo _
  have hx2 : xttsSample F v d noise i ≤ 9 / 10 := clip09_hi _
  have hl1 : -(9 / 10) ≤ localSample F model n noise i := clip09_lo _
  have hl2 : localSample F model n noise i ≤ 9 / 10 := clip09_hi _
  exact ⟨⟨hx1, hx2⟩, ⟨hl1, hl2⟩, quantize_clipped hx1 hx2, quantize_clipped hl1 hl2⟩

/-- C9: with the noise term forced to zero, two runs of the synthesizer
produce identical samples, equal to the deterministic
harmonic-plus-formant-times-envelope component; the noise sequence is the
only input that differs between ordinary runs, for both generators. -/
theorem determinism_noise_free (F : FloatOps) (v : String) (d : ℚ)
    (model : String) (tl : ℕ) (n₁ n₂ : ℕ → ℚ)
    (h₁ : ∀ j, n₁ j = 0) (h₂ : ∀ j, n₂ j = 0) (i : ℕ) :
    xttsSample F v d n₁ i = xttsSample F v d n₂ i ∧
    xttsSample F v d n₁ i = clip09 (xttsDet F v d i) ∧
    localSample F model tl n₁ i = localSample F model tl n₂ i ∧
    localSample F model tl n₁ i = clip09 (localDet F model tl i) := by
  unfold xttsSample localSample
  rw [h₁ i, h₂ i]
  simp

/-- Witness for C9 with every abstract float operation instantiated and the
noise sequence identically zero. -/
theorem determinism_noise_free_witness :
    xttsSample zeroFloatOps "p225" 3 (fun _ => 0) 0 =
      xttsSample zeroFloatOps "p225" 3 (fun _ => 0) 0 ∧
    xttsSample zeroFloatOps "p225" 3 (fun _ => 0) 0 =
      clip09 (xttsDet zeroFloatOps "p225" 3 0) ∧
    localSample zeroFloatOps "tts-1" 0 (fun _ => 0) 0 =
      localSample zeroFloatOps "tts-1" 0 (fun _ => 0) 0 ∧
    localSample zeroFloatOps "tts-1" 0 (fun _ => 0) 0 =
      clip09 (localDet zeroFloatOps "tts-1" 0 0) :=
  determinism_noise_free zeroFloatOps "p225" 3 "tts-1" 0 _ _
    (fun _ => rfl) (fun _ => rfl) 0

/-- C10: after construction the models map always contains "tts-1" and
"tts-1-max", whatever the models directory held; `list_models` lists both
and the unknown-model check passes for both defaults. -/
theorem default_models_invariant (dirs : List DirEntry) (device : String) :
    "tts-1" ∈ loadModelKeys dirs ∧ "tts-1-max" ∈ loadModelKeys dirs ∧
    "tts-1" ∈ (listModels (loadModelKeys dirs) device).1 ∧
    "tts-1-max" ∈ (listModels (loadModelKeys dirs) device).1 ∧
    modelGate (loadModelKeys dirs) "tts-1" = Except.ok () ∧
    modelGate (loadModelKeys dirs) "tts-1-max" = Except.ok () := by
  have h1 := mem_loadModelKeys_tts1 dirs
  have h2 := mem_loadModelKeys_tts1max dirs
  refine ⟨h1, h2, h1, h2, ?_, ?_⟩ <;> unfold modelGate
  · rw [if_pos h1]
  · rw [if_pos h2]

/-- C2: for any buffer and sample rate whose header fields fit their
`struct.pack` widths, the encoder produces exactly the 44-byte canonical
RIFF/WAVE header (all multi-byte fields little-endian) followed by the
quantized sample bytes, and a standard WAV decoder reading the result
recovers a mono 16-bit PCM stream at that sample rate whose sample count
equals the input buffer length. -/
theorem wav_encoder_header (samples : List ℚ) (sr : ℕ)
    (h1 : sr * 2 < 4294967296) (h2 : 36 + 2 * samples.length < 4294967296) :
    wavFileBytes samples sr =
      some (wavHeaderBytes sr (2 * samples.length) ++ wavData samples) ∧
    (wavHeaderBytes sr (2 * samples.length)).length = 44 ∧
    wavParse (wavHeaderBytes sr (2 * samples.length) ++ wavData samples) =
      some (1, 16, sr, samples.length) := by
  refine ⟨?_, wavHeaderBytes_length _ _, ?_⟩
  · unfold wavFileBytes
    rw [wavData_length, wavHeaderPack_eq h1 h2]
    rfl
  · rw [wavParse_header (by omega) (by omega)]
    have hq : 2 * samples.length / 2 = samples.length := by omega
    rw [hq]

/-- Witness for C2 at the empty buffer and the fixed 24000 Hz rate. -/
theorem wav_encoder_header_witness :
    24000 * 2 < 4294967296 ∧ 36 + 2 * ([] : List ℚ).length < 4294967296 ∧
    (wavFileBytes [] 24000 =
        some (wavHeaderBytes 24000 (2 * ([] : List ℚ).length) ++ wavData []) ∧
      (wavHeaderBytes 24000 (2 * ([] : List ℚ).length)).length = 44 ∧
      wavParse (wavHeaderBytes 24000 (2 * ([] : List ℚ).length) ++ wavData []) =
        some (1, 16, 24000, ([] : List ℚ).length)) :=
  ⟨by norm_num, by norm_num, wav_encoder_header [] 24000 (by norm_num) (by norm_num)⟩

/-- C3 counterexample: at the sample 1/2 the encoder yields
trunc(0.5 * 32767) = 16383, while round(clamp(0.5, -1, 1) * 32767) = 16384,
so the claimed quantization formula does not match the code. -/
theorem quantization_round_counterexample :
    quantizeSample (1 / 2) = 16383 ∧ specQuantize (1 / 2) = 16384 ∧
    quantizeSample (1 / 2) ≠ specQuantize (1 / 2) := by
  have hfl : ⌊(1 / 2 : ℚ) * 32767⌋ = 16383 := by
    rw [Int.floor_eq_iff]
    norm_num
  have h1 : quantizeSample (1 / 2) = 16383 := by
    have ha : quantizeSample (1 / 2 : ℚ) = ratTrunc ((1 / 2 : ℚ) * 32767) :=
      (quantize_unit (by norm_num) (by norm_num)).1
    rw [ha]
    unfold ratTrunc
    rw [if_pos (by norm_num), hfl]
  have h2 : specQuantize (1 / 2) = 16384 := by
    unfold specQuantize
    have hm : max (-1 : ℚ) (min 1 (1 / 2)) = 1 / 2 := by norm_num
    rw [hm, round_eq]
    have hv : ((1 / 2 : ℚ) * 32767 + 1 / 2) = ((16384 : ℤ) : ℚ) := by norm_num
    rw [hv]
    exact Int.floor_intCast 16384
  exact ⟨h1, h2, by rw [h1, h2]; decide⟩

/-- C3 amended: the encoder quantizes by truncation toward zero,
`sample_int16 = trunc(sample * 32767)`, with no clamping and no rounding;
for samples in [-1, 1] the result stays within the int16 range, emitted as
little-endian two's-complement bytes. -/
theorem quantization_truncation (s : ℚ) (h1 : -1 ≤ s) (h2 : s ≤ 1) :
    quantizeSample s = ratTrunc (s * 32767) ∧
    (0 ≤ s → quantizeSample s = ⌊s * 32767⌋) ∧
    (s < 0 → quantizeSample s = ⌈s * 32767⌉) ∧
    -32767 ≤ quantizeSample s ∧ quantizeSample s ≤ 32767 := by
  obtain ⟨ha, hb, hc⟩ := quantize_unit h1 h2
  refine ⟨ha, ?_, ?_, hb, hc⟩
  · intro hs
    rw [ha]
    unfold ratTrunc
    rw [if_pos (mul_nonneg hs (by norm_num))]
  · intro hs
    rw [ha]
    unfold ratTrunc
    rw [if_neg (not_le.mpr (mul_neg_of_neg_of_pos hs (by norm_num)))]

/-- Witness for C3 (amended) at the sample 1/2. -/
theorem quantization_truncation_witness :
    -1 ≤ (1 / 2 : ℚ) ∧ (1 / 2 : ℚ) ≤ 1 ∧
    (quantizeSample (1 / 2) = ratTrunc ((1 / 2 : ℚ) * 32767) ∧
      (0 ≤ (1 / 2 : ℚ) → quantizeSample (1 / 2) = ⌊(1 / 2 : ℚ) * 32767⌋) ∧
      ((1 / 2 : ℚ) < 0 → quantizeSample (1 / 2) = ⌈(1 / 2 : ℚ) * 32767⌉) ∧
      -32767 ≤ quantizeSample (1 / 2) ∧ quantizeSample (1 / 2) ≤ 32767) :=
  ⟨by norm_num, by norm_num,
    quantization_truncation (1 / 2) (by norm_num) (by norm_num)⟩

/-- C6 counterexample: with the default model map, `synthesize` for the
unknown identifier "p225x" raises (the gate errors before any fallback),
instead of silently falling back and producing a buffer. -/
theorem unknown_model_raises :
    loadModelKeys [] = ["tts-1", "tts-1-max"] ∧
    modelGate (loadModelKeys []) "p225x" =
      Except.error "Model p225x not found" := by
  exact ⟨rfl, rfl⟩

/-- C6 amended: an unknown voice id given to the reference-audio synthesizer
never raises — it falls back to the low group and the generator stays total —
but a model name absent from the models map makes the local `synthesize`
raise ValueError before any synthesis. -/
theorem voice_fallback_model_gate :
    (∀ v : String, v ∉ highVoices →
      baseFreq v = 110 ∧ formantFreqs v = [400, 1200, 2200, 3200]) ∧
    (∀ (ks : List String) (m : String), m ∉ ks →
      modelGate ks m = Except.error ("Model " ++ m ++ " not found")) := by
  constructor
  · intro v hv
    unfold baseFreq formantFreqs
    rw [if_neg hv, if_neg hv]
    exact ⟨rfl, rfl⟩
  · intro ks m hm
    unfold modelGate
    rw [if_neg hm]

/-- Witness for C6 (amended) at the unknown id "zzz". -/
theorem voice_fallback_model_gate_witness :
    ("zzz" ∉ highVoices ∧ baseFreq "zzz" = 110 ∧
      formantFreqs "zzz" = [400, 1200, 2200, 3200]) ∧
    ("zzz" ∉ (["tts-1"] : List String) ∧
      modelGate ["tts-1"] "zzz" = Except.error ("Model " ++ "zzz" ++ " not found")) :=
  ⟨⟨by decide, (voice_fallback_model_gate.1 "zzz" (by decide)).1,
    (voice_fallback_model_gate.1 "zzz" (by decide)).2⟩,
   ⟨by decide, voice_fallback_model_gate.2 ["tts-1"] "zzz" (by decide)⟩⟩

/-- C7 counterexample: on the fallback path, for the empty text (48000
generated samples at 24000 Hz) the reported duration is
96044 / 48000 = 24011/12000 seconds, not sample_count / sample_rate = 2. -/
theorem synth_duration_counterexample :
    (localBuffer zeroFloatOps "tts-1" 0 (fun _ => 0)).length = 48000 ∧
    (localSynthFallback (fun _ => "") (wavHeaderBytes 24000 96000 ++
        wavData (localBuffer zeroFloatOps "tts-1" 0 (fun _ => 0)))
        true).durationOf = 24011 / 12000 ∧
    ((24011 : ℚ) / 12000) ≠ (48000 : ℚ) / 24000 := by
  have hl : (localBuffer zeroFloatOps "tts-1" 0 (fun _ => 0)).length = 48000 := by
    rw [localBuffer_length]
    simp [samplesFor_eq]
  have hdl : (wavData (localBuffer zeroFloatOps "tts-1" 0 (fun _ => 0))).length =
      96000 := by
    rw [wavData_length, hl]
  have hfl : (wavHeaderBytes 24000 96000 ++
      wavData (localBuffer zeroFloatOps "tts-1" 0 (fun _ => 0))).length = 96044 := by
    rw [List.length_append, wavHeaderBytes_length, hdl]
  have hok : localSynthFallback (fun _ => "") (wavHeaderBytes 24000 96000 ++
      wavData (localBuffer zeroFloatOps "tts-1" 0 (fun _ => 0))) true =
      SynthResult.ok "" "wav" 24000
        (((wavHeaderBytes 24000 96000 ++
          wavData (localBuffer zeroFloatOps "tts-1" 0 (fun _ => 0))).length : ℚ) /
          ((24000 : ℚ) * 2)) := rfl
  refine ⟨hl, ?_, by norm_num⟩
  rw [hok]
  unfold SynthResult.durationOf
  rw [hfl]
  norm_num

/-- C7 amended: `synthesize` returns a structured result with a boolean
success flag; on success (fallback path) it carries the base64-encoded file
bytes, format "wav", sample rate 24000, and a duration computed from the
whole file byte length as `file_len / (sample_rate * 2)`, which equals
`sample_count / sample_rate + 22 / sample_rate` because the 44 header bytes
are included; on failure it carries the error message string. -/
theorem synth_result_shape (F : FloatOps) (enc : List ℕ → String) (model : String)
    (n : ℕ) (noise : ℕ → ℚ) (fb : List ℕ)
    (hfb : wavFileBytes (localBuffer F model n noise) sampleRate = some fb) :
    localSynthFallback enc fb true =
      SynthResult.ok (enc fb) "wav" 24000 ((fb.length : ℚ) / ((24000 : ℚ) * 2)) ∧
    (localSynthFallback enc fb true).durationOf =
      (samplesFor n : ℚ) / 24000 + 11 / 12000 ∧
    localSynthFallback enc fb false = SynthResult.err "Failed to generate speech" := by
  have hlen : fb.length = 44 + 2 * samplesFor n := by
    unfold wavFileBytes at hfb
    cases hh : wavHeaderPack sampleRate
        (wavData (localBuffer F model n noise)).length with
    | none =>
      rw [hh] at hfb
      exact absurd hfb (by simp)
    | some h =>
      rw [hh] at hfb
      obtain ⟨_, _, hc3⟩ := wavHeaderPack_some hh
      have hfb2 : h ++ wavData (localBuffer F model n noise) = fb :=
        Option.some.inj hfb
      rw [← hfb2, List.length_append, hc3, wavHeaderBytes_length,
        wavData_length, localBuffer_length]
  refine ⟨rfl, ?_, rfl⟩
  have hok : localSynthFallback enc fb true =
      SynthResult.ok (enc fb) "wav" 24000 ((fb.length : ℚ) / ((24000 : ℚ) * 2)) := rfl
  rw [hok]
  unfold SynthResult.durationOf
  rw [hlen]
  push_cast
  field_simp
  ring

/-- Witness for C7 (amended): the empty text with every abstract float
operation instantiated; the file image is the header plus the data bytes. -/
theorem synth_result_shape_witness :
    wavFileBytes (localBuffer zeroFloatOps "tts-1" 0 (fun _ => 0)) sampleRate =
      some (wavHeaderBytes 24000 96000 ++
        wavData (localBuffer zeroFloatOps "tts-1" 0 (fun _ => 0))) ∧
    (localSynthFallback (fun _ => "") (wavHeaderBytes 24000 96000 ++
        wavData (localBuffer zeroFloatOps "tts-1" 0 (fun _ => 0))) true =
      SynthResult.ok ((fun _ => "") (wavHeaderBytes 24000 96000 ++
          wavData (localBuffer zeroFloatOps "tts-1" 0 (fun _ => 0)))) "wav" 24000
        (((wavHeaderBytes 24000 96000 ++
          wavData (localBuffer zeroFloatOps "tts-1" 0 (fun _ => 0))).length : ℚ) /
          ((24000 : ℚ) * 2)) ∧
      (localSynthFallback (fun _ => "") (wavHeaderBytes 24000 96000 ++
        wavData (localBuffer zeroFloatOps "tts-1" 0 (fun _ => 0))) true).durationOf =
        (samplesFor 0 : ℚ) / 24000 + 11 / 12000 ∧
      localSynthFallback (fun _ => "") (wavHeaderBytes 24000 96000 ++
        wavData (localBuffer zeroFloatOps "tts-1" 0 (fun _ => 0))) false =
        SynthResult.err "Failed to generate speech") := by
  have hdl : (wavData (localBuffer zeroFloatOps "tts-1" 0 (fun _ => 0))).length =
      96000 := by
    rw [wavData_length, localBuffer_length]
    simp [samplesFor_eq]
  have hfb : wavFileBytes (localBuffer zeroFloatOps "tts-1" 0 (fun _ => 0))
      sampleRate = some (wavHeaderBytes 24000 96000 ++
        wavData (localBuffer zeroFloatOps "tts-1" 0 (fun _ => 0))) := by
    unfold wavFileBytes
    rw [hdl, wavHeaderPack_eq (by norm_num [sampleRate]) (by norm_num)]
    rfl
  exact ⟨hfb, synth_result_shape zeroFloatOps (fun _ => "") "tts-1" 0 (fun _ => 0) _ hfb⟩

/-- C8 counterexample: the encoder performs two writes, not one; after the
first write succeeds and before the second, the file holds exactly the
44-byte header — a nonempty, incomplete file that a failure at that point
leaves behind. -/
theorem single_write_counterexample :
    (wavWriteChunks (List.replicate 48000 (0 : ℚ)) 24000).map List.length =
      some 2 ∧
    (wavWriteChunks (List.replicate 48000 (0 : ℚ)) 24000).map
        (fun ch => (wavWriteRun ch 1).2) = some (wavHeaderBytes 24000 96000) ∧
    wavHeaderBytes 24000 96000 ≠ [] ∧
    wavHeaderBytes 24000 96000 ≠
      wavHeaderBytes 24000 96000 ++ wavData (List.replicate 48000 (0 : ℚ)) := by
  have hch : wavWriteChunks (List.replicate 48000 (0 : ℚ)) 24000 =
      some [wavHeaderBytes 24000 96000,
        wavData (List.replicate 48000 (0 : ℚ))] := by
    unfold wavWriteChunks
    rw [wavData_length]
    simp only [List.length_replicate]
    rw [wavHeaderPack_eq (by norm_num) (by norm_num)]
    rfl
  refine ⟨by rw [hch]; rfl, ?_, ?_, ?_⟩
  · rw [hch]
    have hrun : (wavWriteRun [wavHeaderBytes 24000 96000,
        wavData (List.replicate 48000 (0 : ℚ))] 1).2 =
        wavHeaderBytes 24000 96000 := by
      rw [wavWriteRun_one]
    exact congrArg some hrun
  · intro h
    have hl := wavHeaderBytes_length 24000 96000
    rw [h] at hl
    simp at hl
  · intro h
    have hl := congrArg List.length h
    rw [List.length_append, wavHeaderBytes_length, wavData_length,
      List.length_replicate] at hl
    omega

/-- C8 amended: the encoder writes the header and the data as two sequential
writes inside one open; when both succeed the file is the header followed by
the data, a failure propagates to the caller, and a failure between the two
writes leaves an incomplete file holding exactly the nonempty header. -/
theorem wav_write_two_chunks (samples : List ℚ) (sr : ℕ)
    (h1 : sr * 2 < 4294967296) (h2 : 36 + 2 * samples.length < 4294967296) :
    wavWriteChunks samples sr =
      some [wavHeaderBytes sr (2 * samples.length), wavData samples] ∧
    wavWriteRun [wavHeaderBytes sr (2 * samples.length), wavData samples] 2 =
      (Except.ok (), wavHeaderBytes sr (2 * samples.length) ++ wavData samples) ∧
    wavWriteRun [wavHeaderBytes sr (2 * samples.length), wavData samples] 1 =
      (Except.error "write failed", wavHeaderBytes sr (2 * samples.length)) ∧
    wavHeaderBytes sr (2 * samples.length) ≠ [] := by
  refine ⟨?_, ?_, ?_, ?_⟩
  · unfold wavWriteChunks
    rw [wavData_length, wavHeaderPack_eq h1 h2]
    rfl
  · exact wavWriteRun_two _ _
  · exact wavWriteRun_one _ _
  · intro h
    have hl := wavHeaderBytes_length sr (2 * samples.length)
    rw [h] at hl
    simp at hl

/-- Witness for C8 (amended) at the empty buffer and the fixed rate. -/
theorem wav_write_two_chunks_witness :
    24000 * 2 < 4294967296 ∧ 36 + 2 * ([] : List ℚ).length < 4294967296 ∧
    (wavWriteChunks [] 24000 =
        some [wavHeaderBytes 24000 (2 * ([] : List ℚ).length), wavData []] ∧
      wavWriteRun [wavHeaderBytes 24000 (2 * ([] : List ℚ).length), wavData []] 2 =
        (Except.ok (),
          wavHeaderBytes 24000 (2 * ([] : List ℚ).length) ++ wavData []) ∧
      wavWriteRun [wavHeaderBytes 24000 (2 * ([] : List ℚ).length), wavData []] 1 =
        (Except.error "write failed",
          wavHeaderBytes 24000 (2 * ([] : List ℚ).length)) ∧
      wavHeaderBytes 24000 (2 * ([] : List ℚ).length) ≠ []) :=
  ⟨by norm_num, by norm_num, wav_write_two_chunks [] 24000 (by norm_num) (by norm_num)⟩
